import Mathlib

/-!
Shallow embedding of the `crunch` assertion-verdict engine (src/src/main.rs).

The Rust program reads a log of JSON lines, classifies each line into an
`SDKInput` variant (with a permissive single-key fallback producing
`SendEvent`), groups `AntithesisAssert` records by `id`, and reduces each
group to one `EvaluatedAssertion` verdict. JSON values are modelled by the
inductive `Json`; object entries keep document order.
-/

/-- A JSON value. Objects keep their entries in document order; numbers are
modelled as integers (the log schema only uses integers and opaque payloads). -/
inductive Json where
  | null : Json
  | bool (b : Bool) : Json
  | num (n : Int) : Json
  | str (s : String) : Json
  | arr (elems : List Json) : Json
  | obj (entries : List (String × Json)) : Json
deriving Repr

/-- Mirrors the Rust struct `Location`: source position metadata of an
assertion declaration. The Rust field `class` is named `cls` here because
`class` is a Lean keyword. -/
structure Location where
  begin_column : Int
  begin_line : Int
  cls : String
  file : String
  function : String
deriving Repr

/-- Mirrors the Rust struct `AntithesisSdk`. -/
structure AntithesisSdk where
  language : String
  version : String
deriving Repr

/-- Mirrors the Rust struct `AntithesisSetup`. -/
structure AntithesisSetup where
  status : String
  details : Json
deriving Repr

/-- Mirrors the Rust enum `AssertType`. -/
inductive AssertType where
  | Always : AssertType
  | Sometimes : AssertType
  | Reachability : AssertType
deriving Repr, DecidableEq

/-- Mirrors the Rust struct `AntithesisAssert`: one log record for a declared
assertion (a declaration when `hit = false`, an observation when `hit = true`). -/
structure AntithesisAssert where
  assert_type : AssertType
  condition : Bool
  display_type : String
  hit : Bool
  must_hit : Bool
  id : String
  message : String
  location : Location
  details : Json
deriving Repr

/-- Mirrors the Rust enum `SDKInput`: the classified form of one log line. -/
inductive SDKInput where
  | AntithesisSdk (x : AntithesisSdk) : SDKInput
  | AntithesisAssert (x : AntithesisAssert) : SDKInput
  | AntithesisSetup (x : AntithesisSetup) : SDKInput
  | SendEvent (event_name : String) (details : Json) : SDKInput
deriving Repr

/-- Mirrors the Rust struct `EvaluatedAssertion`: the output verdict for one id. -/
structure EvaluatedAssertion where
  display_type : String
  id : String
  message : String
  location : Location
  example_details : Option Json
  counter_details : Option Json
  passed : Bool
deriving Repr

/-- One step of the slot-filling loop at the top of `EvaluatedAssertion::new`:
the triple is `(catalog_entry, condition_true_entry, condition_false_entry)`
and the current entry overwrites exactly one slot. -/
def slotStep (s : Option AntithesisAssert × Option AntithesisAssert × Option AntithesisAssert)
    (entry : AntithesisAssert) :
    Option AntithesisAssert × Option AntithesisAssert × Option AntithesisAssert :=
  if entry.hit then
    if entry.condition then (s.1, some entry, s.2.2)
    else (s.1, s.2.1, some entry)
  else (some entry, s.2.1, s.2.2)

/-- The slot-filling loop of `EvaluatedAssertion::new`, run over the whole
group: returns `(catalog_entry, condition_true_entry, condition_false_entry)`. -/
def scanSlots (assert_list : List AntithesisAssert) :
    Option AntithesisAssert × Option AntithesisAssert × Option AntithesisAssert :=
  assert_list.foldl slotStep (none, none, none)

/-- Mirrors `EvaluatedAssertion::new`. The Rust code calls
`catalog_entry.unwrap()`, a panic when the group has no declaration; the
panic is modelled as `none`. -/
def EvaluatedAssertion.new (assert_list : List AntithesisAssert) : Option EvaluatedAssertion :=
  let slots := scanSlots assert_list
  let condition_true_entry := slots.2.1
  let condition_false_entry := slots.2.2
  match slots.1 with
  | none => none
  | some input_entry =>
    match input_entry.assert_type with
    | AssertType.Always =>
      some { display_type := input_entry.display_type
             id := input_entry.id
             message := input_entry.message
             location := input_entry.location
             example_details := condition_true_entry.map AntithesisAssert.details
             counter_details := condition_false_entry.map AntithesisAssert.details
             passed := if input_entry.must_hit then
                 condition_true_entry.isSome && condition_false_entry.isNone
               else condition_false_entry.isNone }
    | AssertType.Sometimes =>
      some { display_type := input_entry.display_type
             id := input_entry.id
             message := input_entry.message
             location := input_entry.location
             example_details := condition_true_entry.map AntithesisAssert.details
             counter_details := condition_false_entry.map AntithesisAssert.details
             passed := condition_true_entry.isSome }
    | AssertType.Reachability =>
      if input_entry.must_hit then
        some { display_type := input_entry.display_type
               id := input_entry.id
               message := input_entry.message
               location := input_entry.location
               example_details :=
                 (condition_true_entry.or condition_false_entry).map AntithesisAssert.details
               counter_details := none
               passed := condition_true_entry.isSome || condition_false_entry.isSome }
      else
        some { display_type := input_entry.display_type
               id := input_entry.id
               message := input_entry.message
               location := input_entry.location
               example_details := none
               counter_details :=
                 (condition_true_entry.or condition_false_entry).map AntithesisAssert.details
               passed := !(condition_true_entry.isSome || condition_false_entry.isSome) }

/-- Append one assert to its id's bucket, mirroring
`result.entry(x.id.clone()).or_insert(Vec::new()).push(x)`; the map is an
association list keyed by `id`. -/
def insertAssert : List (String × List AntithesisAssert) → AntithesisAssert →
    List (String × List AntithesisAssert)
  | [], x => [(x.id, [x])]
  | (k, v) :: rest, x =>
    if k = x.id then (k, v ++ [x]) :: rest else (k, v) :: insertAssert rest x

/-- One step of the `group_asserts` loop: asserts go to their bucket, every
other variant is ignored (the Rust code logs it to stderr and drops it). -/
def groupStep (m : List (String × List AntithesisAssert)) (input : SDKInput) :
    List (String × List AntithesisAssert) :=
  match input with
  | SDKInput.AntithesisAssert x => insertAssert m x
  | _ => m

/-- Mirrors `group_asserts`: buckets the assert records by `id`, preserving
input order inside each bucket. -/
def group_asserts (inputs : List SDKInput) : List (String × List AntithesisAssert) :=
  inputs.foldl groupStep []

/-- Mirrors the `.map(EvaluatedAssertion::new).collect()` step of `main`;
`none` models the panic on a group without declaration. -/
def eval_groups : List (String × List AntithesisAssert) → Option (List EvaluatedAssertion)
  | [] => some []
  | (_, v) :: rest =>
    match EvaluatedAssertion.new v with
    | none => none
    | some ev =>
      match eval_groups rest with
      | none => none
      | some evs => some (ev :: evs)

/-- The grouping-and-reduction pipeline of `main` on classified records. -/
def run_records (inputs : List SDKInput) : Option (List EvaluatedAssertion) :=
  eval_groups (group_asserts inputs)

/-- Decode a JSON string, as serde does for a `String` field. -/
def asString : Json → Option String
  | Json.str s => some s
  | _ => none

/-- Decode a JSON boolean, as serde does for a `bool` field. -/
def asBool : Json → Option Bool
  | Json.bool b => some b
  | _ => none

/-- Decode a JSON integer, as serde does for an `i32` field. -/
def asInt : Json → Option Int
  | Json.num n => some n
  | _ => none

/-- Field lookup in a decoded object, first occurrence wins. -/
def getField (entries : List (String × Json)) (k : String) : Option Json :=
  match entries.find? (fun p => p.1 == k) with
  | some p => some p.2
  | none => none

/-- serde decode of the `Location` struct: all five fields required, unknown
fields ignored. -/
def decodeLocation (v : Json) : Option Location :=
  match v with
  | Json.obj es => do
    let bc ← getField es "begin_column" >>= asInt
    let bl ← getField es "begin_line" >>= asInt
    let cl ← getField es "class" >>= asString
    let fi ← getField es "file" >>= asString
    let fu ← getField es "function" >>= asString
    some { begin_column := bc, begin_line := bl, cls := cl, file := fi, function := fu }
  | _ => none

/-- serde decode of the `AntithesisSdk` struct. -/
def decodeAntithesisSdk (v : Json) : Option AntithesisSdk :=
  match v with
  | Json.obj es => do
    let la ← getField es "language" >>= asString
    let ve ← getField es "version" >>= asString
    some { language := la, version := ve }
  | _ => none

/-- serde decode of the `AntithesisSetup` struct; `details` is an arbitrary
value but must be present. -/
def decodeAntithesisSetup (v : Json) : Option AntithesisSetup :=
  match v with
  | Json.obj es => do
    let st ← getField es "status" >>= asString
    let de ← getField es "details"
    some { status := st, details := de }
  | _ => none

/-- serde decode of `AssertType` with `rename_all = "snake_case"`. -/
def decodeAssertType (v : Json) : Option AssertType :=
  match v with
  | Json.str "always" => some AssertType.Always
  | Json.str "sometimes" => some AssertType.Sometimes
  | Json.str "reachability" => some AssertType.Reachability
  | _ => none

/-- serde decode of the `AntithesisAssert` struct: all nine fields required. -/
def decodeAntithesisAssert (v : Json) : Option AntithesisAssert :=
  match v with
  | Json.obj es => do
    let at_ ← getField es "assert_type" >>= decodeAssertType
    let co ← getField es "condition" >>= asBool
    let dt ← getField es "display_type" >>= asString
    let hi ← getField es "hit" >>= asBool
    let mh ← getField es "must_hit" >>= asBool
    let idv ← getField es "id" >>= asString
    let me ← getField es "message" >>= asString
    let lo ← getField es "location" >>= decodeLocation
    let de ← getField es "details"
    some { assert_type := at_, condition := co, display_type := dt, hit := hi,
           must_hit := mh, id := idv, message := me, location := lo, details := de }
  | _ => none

/-- serde decode of the struct variant `SendEvent{event_name, details}`. -/
def decodeSendEvent (v : Json) : Option SDKInput :=
  match v with
  | Json.obj es => do
    let en ← getField es "event_name" >>= asString
    let de ← getField es "details"
    some (SDKInput.SendEvent en de)
  | _ => none

/-- serde decode of the externally tagged enum `SDKInput`: a map with exactly
one entry whose key names a variant (snake_case) and whose value decodes to
that variant's content. -/
def decodeSDKInput (v : Json) : Option SDKInput :=
  match v with
  | Json.obj [(tag, content)] =>
    if tag = "antithesis_sdk" then (decodeAntithesisSdk content).map SDKInput.AntithesisSdk
    else if tag = "antithesis_assert" then
      (decodeAntithesisAssert content).map SDKInput.AntithesisAssert
    else if tag = "antithesis_setup" then
      (decodeAntithesisSetup content).map SDKInput.AntithesisSetup
    else if tag = "send_event" then decodeSendEvent content
    else none
  | _ => none

/-- JSON whitespace. -/
def isJsonWs (c : Char) : Bool :=
  c == ' ' || c == '\t' || c == '\n' || c == '\r'

/-- Drop leading JSON whitespace. -/
def skipWs : List Char → List Char
  | [] => []
  | c :: cs => if isJsonWs c then skipWs cs else c :: cs

/-- Numeric value of a digit character. -/
def digitVal (c : Char) : Nat := c.toNat - '0'.toNat

/-- Consume a run of digits, accumulating their value. -/
def parseDigits : List Char → Nat → Nat × List Char
  | [], acc => (acc, [])
  | c :: cs, acc =>
    if c.isDigit then parseDigits cs (acc * 10 + digitVal c) else (acc, c :: cs)

/-- Consume the body of a JSON string after the opening quote, handling the
basic escapes. -/
def parseStringBody : List Char → List Char → Option (String × List Char)
  | [], _ => none
  | c :: cs, acc =>
    if c == '"' then some (String.mk acc.reverse, cs)
    else if c == '\\' then
      match cs with
      | [] => none
      | e :: cs2 =>
        if e == '"' then parseStringBody cs2 ('"' :: acc)
        else if e == '\\' then parseStringBody cs2 ('\\' :: acc)
        else if e == '/' then parseStringBody cs2 ('/' :: acc)
        else if e == 'n' then parseStringBody cs2 ('\n' :: acc)
        else if e == 't' then parseStringBody cs2 ('\t' :: acc)
        else if e == 'r' then parseStringBody cs2 ('\r' :: acc)
        else none
    else parseStringBody cs (c :: acc)

mutual

/-- Recursive-descent JSON value parser; `fuel` bounds the recursion depth and
is sized from the input length at the entry point. -/
def parseVal : Nat → List Char → Option (Json × List Char)
  | 0, _ => none
  | Nat.succ fuel, cs =>
    match skipWs cs with
    | [] => none
    | c :: rest =>
      if c == 'n' then
        match rest with
        | 'u' :: 'l' :: 'l' :: rest2 => some (Json.null, rest2)
        | _ => none
      else if c == 't' then
        match rest with
        | 'r' :: 'u' :: 'e' :: rest2 => some (Json.bool true, rest2)
        | _ => none
      else if c == 'f' then
        match rest with
        | 'a' :: 'l' :: 's' :: 'e' :: rest2 => some (Json.bool false, rest2)
        | _ => none
      else if c == '"' then
        match parseStringBody rest [] with
        | some (s, rest2) => some (Json.str s, rest2)
        | none => none
      else if c == '-' then
        match rest with
        | [] => none
        | d :: _ =>
          if d.isDigit then
            match parseDigits rest 0 with
            | (n, rest2) => some (Json.num (-(n : Int)), rest2)
          else none
      else if c.isDigit then
        match parseDigits (c :: rest) 0 with
        | (n, rest2) => some (Json.num (n : Int), rest2)
      else if c == '[' then
        match skipWs rest with
        | ']' :: rest2 => some (Json.arr [], rest2)
        | _ =>
          match parseElems fuel rest with
          | some (xs, rest2) => some (Json.arr xs, rest2)
          | none => none
      else if c == '\x7b' then
        match skipWs rest with
        | '\x7d' :: rest2 => some (Json.obj [], rest2)
        | _ =>
          match parseMembers fuel rest with
          | some (kvs, rest2) => some (Json.obj kvs, rest2)
          | none => none
      else none

/-- Parse the comma-separated elements of a nonempty array, including the
closing bracket. -/
def parseElems : Nat → List Char → Option (List Json × List Char)
  | 0, _ => none
  | Nat.succ fuel, cs =>
    match parseVal fuel cs with
    | none => none
    | some (v, rest) =>
      match skipWs rest with
      | ',' :: rest2 =>
        match parseElems fuel rest2 with
        | some (xs, rest3) => some (v :: xs, rest3)
        | none => none
      | ']' :: rest2 => some ([v], rest2)
      | _ => none

/-- Parse the comma-separated members of a nonempty object, including the
closing brace. -/
def parseMembers : Nat → List Char → Option (List (String × Json) × List Char)
  | 0, _ => none
  | Nat.succ fuel, cs =>
    match skipWs cs with
    | '"' :: rest =>
      match parseStringBody rest [] with
      | none => none
      | some (k, rest2) =>
        match skipWs rest2 with
        | ':' :: rest3 =>
          match parseVal fuel rest3 with
          | none => none
          | some (v, rest4) =>
            match skipWs rest4 with
            | ',' :: rest5 =>
              match parseMembers fuel rest5 with
              | some (kvs, rest6) => some ((k, v) :: kvs, rest6)
              | none => none
            | '\x7d' :: rest5 => some ([(k, v)], rest5)
            | _ => none
        | _ => none
    | _ => none

end

/-- Parse a whole string as one JSON value, as `serde_json::from_str` does:
only trailing whitespace may follow the value. -/
def from_str (s : String) : Option Json :=
  match parseVal (s.length + 2) s.toList with
  | some (v, rest) =>
    match skipWs rest with
    | [] => some v
    | _ => none
  | none => none

/-- The per-line classification of `parse_lines`: try the strict `SDKInput`
decode; on failure re-parse the line as a generic value and, when it is a
nonempty object, fall back to a `SendEvent` named by its first entry.
Everything else is a fatal error. -/
def parse_line (line : String) : Except String SDKInput :=
  match from_str line with
  | none => Except.error "invalid JSON"
  | some v =>
    match decodeSDKInput v with
    | some x => Except.ok x
    | none =>
      match v with
      | Json.obj user_data =>
        match user_data with
        | [] => Except.error "no details found here"
        | (event_name, details) :: _ => Except.ok (SDKInput.SendEvent event_name details)
      | _ => Except.error "it broke - not an Object() unable to parse JSON"

/-- Mirrors `parse_lines`: lines of length zero are skipped, the rest are
classified; the first error aborts the batch. -/
def parse_lines : List String → Except String (List SDKInput)
  | [] => Except.ok []
  | line :: rest =>
    if line.length < 1 then parse_lines rest
    else
      match parse_line line with
      | Except.error e => Except.error e
      | Except.ok x =>
        match parse_lines rest with
        | Except.error e => Except.error e
        | Except.ok xs => Except.ok (x :: xs)

/-- The whole pipeline of `main` after file I/O: parse, group, reduce. The
`unwrap` panic on a group with no declaration surfaces as an error. -/
def run (lines : List String) : Except String (List EvaluatedAssertion) :=
  match parse_lines lines with
  | Except.error e => Except.error e
  | Except.ok parsed =>
    match run_records parsed with
    | none => Except.error "called Option::unwrap() on a None value"
    | some evs => Except.ok evs

/-- Last-write-wins fold for a single slot: the final value is the last
element satisfying `p`. -/
def slotFold (p : AntithesisAssert → Bool) (l : List AntithesisAssert) : Option AntithesisAssert :=
  l.foldl (fun s e => if p e then some e else s) none

/-- The asserts of `inputs` carrying a given id, in input order. -/
def assertsOf (i : String) (inputs : List SDKInput) : List AntithesisAssert :=
  inputs.filterMap (fun input =>
    match input with
    | SDKInput.AntithesisAssert a => if a.id = i then some a else none
    | _ => none)

/-- Lookup of an id's bucket in the grouping association list. -/
def lookupId (i : String) : List (String × List AntithesisAssert) → Option (List AntithesisAssert)
  | [] => none
  | (k, v) :: rest => if k = i then some v else lookupId i rest

/-- A sample source location for concrete test groups. -/
def sampleLoc : Location :=
  { begin_column := 1, begin_line := 2, cls := "C", file := "f.rs", function := "g" }

/-- Build a concrete assert record with the given kind, flags and payload. -/
def mkA (t : AssertType) (mh hitv cond : Bool) (d : Json) : AntithesisAssert :=
  { assert_type := t, condition := cond, display_type := "t", hit := hitv,
    must_hit := mh, id := "A1", message := "m", location := sampleLoc, details := d }

/-- Concrete group: Always declaration with one true and one false observation. -/
def gAlways : List AntithesisAssert :=
  [mkA AssertType.Always true false true Json.null,
   mkA AssertType.Always true true true (Json.num 1),
   mkA AssertType.Always true true false (Json.num 2)]

/-- Concrete group: Sometimes declaration with one true observation. -/
def gSometimes : List AntithesisAssert :=
  [mkA AssertType.Sometimes false false true Json.null,
   mkA AssertType.Sometimes false true true (Json.num 1)]

/-- Concrete group: Reachability (must_hit) declaration with one observation. -/
def gReach : List AntithesisAssert :=
  [mkA AssertType.Reachability true false true Json.null,
   mkA AssertType.Reachability true true true (Json.num 1)]

/-- Concrete group: a lone Always declaration, no observations. -/
def gDeclOnly : List AntithesisAssert :=
  [mkA AssertType.Always false false true Json.null]

/-- Concrete group: Reachability with `must_hit = false` and two true
observations with distinct payloads. -/
def cexGroup : List AntithesisAssert :=
  [mkA AssertType.Reachability false false true Json.null,
   mkA AssertType.Reachability false true true (Json.num 1),
   mkA AssertType.Reachability false true true (Json.num 2)]

/-- Concrete group: Always with two true observations with distinct payloads. -/
def gLww : List AntithesisAssert :=
  [mkA AssertType.Always false false true Json.null,
   mkA AssertType.Always false true true (Json.num 1),
   mkA AssertType.Always false true true (Json.num 2)]

/-- A concrete assert record that was hit but never declared. -/
def hitOnlyAssert : AntithesisAssert := mkA AssertType.Always true true true Json.null

/-- Extend an optional existing bucket by a list of later asserts; `none`
stands for "id never seen". -/
def appendGroup : Option (List AntithesisAssert) → List AntithesisAssert →
    Option (List AntithesisAssert)
  | some v, l => some (v ++ l)
  | none, [] => none
  | none, l => some l

theorem optIsNoneNot (o : Option α) : o.isNone = !o.isSome := by
  cases o <;> rfl

theorem slotFold_append (p : AntithesisAssert → Bool) (l : List AntithesisAssert)
    (x : AntithesisAssert) :
    slotFold p (l ++ [x]) = if p x then some x else slotFold p l := by
  simp [slotFold, List.foldl_append]

theorem scanSlots_append (l : List AntithesisAssert) (x : AntithesisAssert) :
    scanSlots (l ++ [x]) = slotStep (scanSlots l) x := by
  simp [scanSlots, List.foldl_append]

theorem slotStep_fst (s : Option AntithesisAssert × Option AntithesisAssert × Option AntithesisAssert)
    (x : AntithesisAssert) :
    (slotStep s x).1 = if !x.hit then some x else s.1 := by
  cases hx : x.hit <;> cases hc : x.condition <;> simp [slotStep, hx, hc]

theorem slotStep_wt (s : Option AntithesisAssert × Option AntithesisAssert × Option AntithesisAssert)
    (x : AntithesisAssert) :
    (slotStep s x).2.1 = if x.hit && x.condition then some x else s.2.1 := by
  cases hx : x.hit <;> cases hc : x.condition <;> simp [slotStep, hx, hc]

theorem slotStep_wf (s : Option AntithesisAssert × Option AntithesisAssert × Option AntithesisAssert)
    (x : AntithesisAssert) :
    (slotStep s x).2.2 = if x.hit && !x.condition then some x else s.2.2 := by
  cases hx : x.hit <;> cases hc : x.condition <;> simp [slotStep, hx, hc]

theorem scanSlots_fst (l : List AntithesisAssert) :
    (scanSlots l).1 = slotFold (fun e => !e.hit) l := by
  induction l using List.reverseRecOn with
  | nil => rfl
  | append_singleton l x ih =>
    rw [scanSlots_append, slotStep_fst, slotFold_append, ih]

theorem scanSlots_wt (l : List AntithesisAssert) :
    (scanSlots l).2.1 = slotFold (fun e => e.hit && e.condition) l := by
  induction l using List.reverseRecOn with
  | nil => rfl
  | append_singleton l x ih =>
    rw [scanSlots_append, slotStep_wt, slotFold_append, ih]

theorem scanSlots_wf (l : List AntithesisAssert) :
    (scanSlots l).2.2 = slotFold (fun e => e.hit && !e.condition) l := by
  induction l using List.reverseRecOn with
  | nil => rfl
  | append_singleton l x ih =>
    rw [scanSlots_append, slotStep_wf, slotFold_append, ih]

theorem slotFold_eq_getLast (p : AntithesisAssert → Bool) (l : List AntithesisAssert) :
    slotFold p l = (l.filter p).getLast? := by
  induction l using List.reverseRecOn with
  | nil => rfl
  | append_singleton l x ih =>
    rw [slotFold_append, List.filter_append]
    cases hp : p x
    · simp [hp, ih]
    · simp [hp, List.getLast?_concat]

theorem slotFold_isSome (p : AntithesisAssert → Bool) (l : List AntithesisAssert) :
    (slotFold p l).isSome = l.any p := by
  induction l using List.reverseRecOn with
  | nil => rfl
  | append_singleton l x ih =>
    rw [slotFold_append, List.any_append]
    cases hp : p x <;> simp [hp, ih]

theorem any_hit_split (l : List AntithesisAssert) :
    l.any (fun e => e.hit) =
      (l.any (fun e => e.hit && e.condition) || l.any (fun e => e.hit && !e.condition)) := by
  induction l with
  | nil => rfl
  | cons e l ih =>
    cases he : e.hit <;> cases hc : e.condition <;>
      simp [List.any_cons, he, hc, ih, Bool.or_assoc, Bool.or_comm, Bool.or_left_comm]

/-- C1: for a group whose declaration has kind Always, `passed` is: with
`must_hit`, witness_true present and witness_false absent; without
`must_hit`, witness_false absent. `example_details` is the last true
witness's details and `counter_details` the last false witness's details,
null when absent. -/
theorem always_verdict (l : List AntithesisAssert) (d : AntithesisAssert)
    (hd : (scanSlots l).1 = some d) (hk : d.assert_type = AssertType.Always) :
    ∃ ev, EvaluatedAssertion.new l = some ev ∧
      (d.must_hit = true →
        ev.passed = (l.any (fun e => e.hit && e.condition) &&
          !(l.any (fun e => e.hit && !e.condition)))) ∧
      (d.must_hit = false →
        ev.passed = !(l.any (fun e => e.hit && !e.condition))) ∧
      ev.example_details =
        ((l.filter (fun e => e.hit && e.condition)).getLast?).map AntithesisAssert.details ∧
      ev.counter_details =
        ((l.filter (fun e => e.hit && !e.condition)).getLast?).map AntithesisAssert.details := by
  have hnew : EvaluatedAssertion.new l = some
      { display_type := d.display_type, id := d.id, message := d.message,
        location := d.location,
        example_details := (scanSlots l).2.1.map AntithesisAssert.details,
        counter_details := (scanSlots l).2.2.map AntithesisAssert.details,
        passed := if d.must_hit then (scanSlots l).2.1.isSome && (scanSlots l).2.2.isNone
          else (scanSlots l).2.2.isNone } := by
    simp only [EvaluatedAssertion.new, hd, hk]
  refine ⟨_, hnew, ?_, ?_, ?_, ?_⟩
  · intro hm
    simp [hm, optIsNoneNot, scanSlots_wt, scanSlots_wf, slotFold_isSome]
  · intro hm
    simp [hm, optIsNoneNot, scanSlots_wf, slotFold_isSome]
  · simp only []
    rw [scanSlots_wt, slotFold_eq_getLast]
  · simp only []
    rw [scanSlots_wf, slotFold_eq_getLast]

/-- Witness for C1: the Always theorem applied to a concrete group holding a
declaration, a true observation and a false observation. -/
theorem always_verdict_witness :
    (scanSlots gAlways).1 = some (mkA AssertType.Always true false true Json.null) ∧
    (mkA AssertType.Always true false true Json.null).assert_type = AssertType.Always ∧
    ∃ ev, EvaluatedAssertion.new gAlways = some ev := by
  refine ⟨rfl, rfl, ?_⟩
  obtain ⟨ev, h, -, -, -, -⟩ :=
    always_verdict gAlways (mkA AssertType.Always true false true Json.null) rfl rfl
  exact ⟨ev, h⟩

/-- C2: for a group whose declaration has kind Sometimes, `passed` is exactly
"witness_true present", independent of `must_hit`; the details fields carry
the last witnesses' payloads (null when absent), and a present witness_false
does not appear in the `passed` condition at all. -/
theorem sometimes_verdict (l : List AntithesisAssert) (d : AntithesisAssert)
    (hd : (scanSlots l).1 = some d) (hk : d.assert_type = AssertType.Sometimes) :
    ∃ ev, EvaluatedAssertion.new l = some ev ∧
      ev.passed = l.any (fun e => e.hit && e.condition) ∧
      ev.example_details =
        ((l.filter (fun e => e.hit && e.condition)).getLast?).map AntithesisAssert.details ∧
      ev.counter_details =
        ((l.filter (fun e => e.hit && !e.condition)).getLast?).map AntithesisAssert.details := by
  have hnew : EvaluatedAssertion.new l = some
      { display_type := d.display_type, id := d.id, message := d.message,
        location := d.location,
        example_details := (scanSlots l).2.1.map AntithesisAssert.details,
        counter_details := (scanSlots l).2.2.map AntithesisAssert.details,
        passed := (scanSlots l).2.1.isSome } := by
    simp only [EvaluatedAssertion.new, hd, hk]
  refine ⟨_, hnew, ?_, ?_, ?_⟩
  · simp only []
    rw [scanSlots_wt, slotFold_isSome]
  · simp only []
    rw [scanSlots_wt, slotFold_eq_getLast]
  · simp only []
    rw [scanSlots_wf, slotFold_eq_getLast]

/-- Witness for C2: the Sometimes theorem applied to a concrete group. -/
theorem sometimes_verdict_witness :
    (scanSlots gSometimes).1 = some (mkA AssertType.Sometimes false false true Json.null) ∧
    (mkA AssertType.Sometimes false false true Json.null).assert_type = AssertType.Sometimes ∧
    ∃ ev, EvaluatedAssertion.new gSometimes = some ev := by
  refine ⟨rfl, rfl, ?_⟩
  obtain ⟨ev, h, -, -, -⟩ :=
    sometimes_verdict gSometimes (mkA AssertType.Sometimes false false true Json.null) rfl rfl
  exact ⟨ev, h⟩

/-- C3: for a group whose declaration has kind Reachability: with `must_hit`,
`passed` is "some hit observation exists", `example_details` is the
true-preferred witness's details and `counter_details` is null; without
`must_hit`, `passed` is "no hit observation exists", `counter_details` is
the true-preferred witness's details and `example_details` is null. -/
theorem reachability_verdict (l : List AntithesisAssert) (d : AntithesisAssert)
    (hd : (scanSlots l).1 = some d) (hk : d.assert_type = AssertType.Reachability) :
    ∃ ev, EvaluatedAssertion.new l = some ev ∧
      (d.must_hit = true →
        ev.passed = l.any (fun e => e.hit) ∧
        ev.example_details =
          (((l.filter (fun e => e.hit && e.condition)).getLast?).or
            ((l.filter (fun e => e.hit && !e.condition)).getLast?)).map AntithesisAssert.details ∧
        ev.counter_details = none) ∧
      (d.must_hit = false →
        ev.passed = !(l.any (fun e => e.hit)) ∧
        ev.counter_details =
          (((l.filter (fun e => e.hit && e.condition)).getLast?).or
            ((l.filter (fun e => e.hit && !e.condition)).getLast?)).map AntithesisAssert.details ∧
        ev.example_details = none) := by
  cases hm : d.must_hit with
  | true =>
    have hnew : EvaluatedAssertion.new l = some
        { display_type := d.display_type, id := d.id, message := d.message,
          location := d.location,
          example_details :=
            ((scanSlots l).2.1.or (scanSlots l).2.2).map AntithesisAssert.details,
          counter_details := none,
          passed := (scanSlots l).2.1.isSome || (scanSlots l).2.2.isSome } := by
      simp only [EvaluatedAssertion.new, hd, hk, hm, if_true]
    refine ⟨_, hnew, ?_, ?_⟩
    · intro _
      refine ⟨?_, ?_, rfl⟩
      · simp only []
        rw [scanSlots_wt, scanSlots_wf, slotFold_isSome, slotFold_isSome, ← any_hit_split]
      · simp only []
        rw [scanSlots_wt, scanSlots_wf, slotFold_eq_getLast, slotFold_eq_getLast]
    · intro h
      exact Bool.noConfusion h
  | false =>
    have hnew : EvaluatedAssertion.new l = some
        { display_type := d.display_type, id := d.id, message := d.message,
          location := d.location,
          example_details := none,
          counter_details :=
            ((scanSlots l).2.1.or (scanSlots l).2.2).map AntithesisAssert.details,
          passed := !((scanSlots l).2.1.isSome || (scanSlots l).2.2.isSome) } := by
      simp only [EvaluatedAssertion.new, hd, hk, hm, Bool.false_eq_true, if_false]
    refine ⟨_, hnew, ?_, ?_⟩
    · intro h
      exact Bool.noConfusion h
    · intro _
      refine ⟨?_, ?_, rfl⟩
      · simp only []
        rw [scanSlots_wt, scanSlots_wf, slotFold_isSome, slotFold_isSome, ← any_hit_split]
      · simp only []
        rw [scanSlots_wt, scanSlots_wf, slotFold_eq_getLast, slotFold_eq_getLast]

/-- Witness for C3: the Reachability theorem applied to a concrete group. -/
theorem reachability_verdict_witness :
    (scanSlots gReach).1 = some (mkA AssertType.Reachability true false true Json.null) ∧
    (mkA AssertType.Reachability true false true Json.null).assert_type =
      AssertType.Reachability ∧
    ∃ ev, EvaluatedAssertion.new gReach = some ev := by
  refine ⟨rfl, rfl, ?_⟩
  obtain ⟨ev, h, -, -⟩ :=
    reachability_verdict gReach (mkA AssertType.Reachability true false true Json.null) rfl rfl
  exact ⟨ev, h⟩

/-- C6: a group with a declaration and no hit observations does not crash the
reduction and yields the spec's verdict table; in the Reachability cases both
detail fields are null. -/
theorem declaration_only_verdicts (l : List AntithesisAssert) (d : AntithesisAssert)
    (hd : (scanSlots l).1 = some d) (hall : ∀ e ∈ l, e.hit = false) :
    ∃ ev, EvaluatedAssertion.new l = some ev ∧
      (d.assert_type = AssertType.Always → d.must_hit = false → ev.passed = true) ∧
      (d.assert_type = AssertType.Always → d.must_hit = true → ev.passed = false) ∧
      (d.assert_type = AssertType.Sometimes → ev.passed = false) ∧
      (d.assert_type = AssertType.Reachability → d.must_hit = true → ev.passed = false) ∧
      (d.assert_type = AssertType.Reachability → d.must_hit = false → ev.passed = true) ∧
      (d.assert_type = AssertType.Reachability →
        ev.example_details = none ∧ ev.counter_details = none) := by
  have hwtS : (scanSlots l).2.1.isSome = false := by
    rw [scanSlots_wt, slotFold_isSome]
    simp only [List.any_eq_false]
    intro x hx
    simp [hall x hx]
  have hwfS : (scanSlots l).2.2.isSome = false := by
    rw [scanSlots_wf, slotFold_isSome]
    simp only [List.any_eq_false]
    intro x hx
    simp [hall x hx]
  have hwt : (scanSlots l).2.1 = none := by
    cases hcase : (scanSlots l).2.1
    · rfl
    · rw [hcase] at hwtS
      simp at hwtS
  have hwf : (scanSlots l).2.2 = none := by
    cases hcase : (scanSlots l).2.2
    · rfl
    · rw [hcase] at hwfS
      simp at hwfS
  cases hk : d.assert_type with
  | Always =>
    have hnew : EvaluatedAssertion.new l = some
        { display_type := d.display_type, id := d.id, message := d.message,
          location := d.location, example_details := none, counter_details := none,
          passed := if d.must_hit then false else true } := by
      simp [EvaluatedAssertion.new, hd, hk, hwt, hwf]
    refine ⟨_, hnew, ?_, ?_, ?_, ?_, ?_, ?_⟩
    · intro _ hm
      simp [hm]
    · intro _ hm
      simp [hm]
    · intro hS
      exact AssertType.noConfusion hS
    · intro hR
      exact AssertType.noConfusion hR
    · intro hR
      exact AssertType.noConfusion hR
    · intro hR
      exact AssertType.noConfusion hR
  | Sometimes =>
    have hnew : EvaluatedAssertion.new l = some
        { display_type := d.display_type, id := d.id, message := d.message,
          location := d.location, example_details := none, counter_details := none,
          passed := false } := by
      simp [EvaluatedAssertion.new, hd, hk, hwt, hwf]
    refine ⟨_, hnew, ?_, ?_, ?_, ?_, ?_, ?_⟩
    · intro hA
      exact AssertType.noConfusion hA
    · intro hA
      exact AssertType.noConfusion hA
    · intro _
      rfl
    · intro hR
      exact AssertType.noConfusion hR
    · intro hR
      exact AssertType.noConfusion hR
    · intro hR
      exact AssertType.noConfusion hR
  | Reachability =>
    cases hm : d.must_hit with
    | true =>
      have hnew : EvaluatedAssertion.new l = some
          { display_type := d.display_type, id := d.id, message := d.message,
            location := d.location, example_details := none, counter_details := none,
            passed := false } := by
        simp [EvaluatedAssertion.new, hd, hk, hm, hwt, hwf]
      refine ⟨_, hnew, ?_, ?_, ?_, ?_, ?_, ?_⟩
      · intro hA
        exact AssertType.noConfusion hA
      · intro hA
        exact AssertType.noConfusion hA
      · intro hS
        exact AssertType.noConfusion hS
      · intro _ _
        rfl
      · intro _ hm2
        exact Bool.noConfusion hm2
      · intro _
        exact ⟨rfl, rfl⟩
    | false =>
      have hnew : EvaluatedAssertion.new l = some
          { display_type := d.display_type, id := d.id, message := d.message,
            location := d.location, example_details := none, counter_details := none,
            passed := true } := by
        simp [EvaluatedAssertion.new, hd, hk, hm, hwt, hwf]
      refine ⟨_, hnew, ?_, ?_, ?_, ?_, ?_, ?_⟩
      · intro hA
        exact AssertType.noConfusion hA
      · intro hA
        exact AssertType.noConfusion hA
      · intro hS
        exact AssertType.noConfusion hS
      · intro _ hm2
        exact Bool.noConfusion hm2
      · intro _ _
        rfl
      · intro _
        exact ⟨rfl, rfl⟩

/-- Witness for C6: a lone Always declaration with `must_hit = false`. -/
theorem declaration_only_verdicts_witness :
    (scanSlots gDeclOnly).1 = some (mkA AssertType.Always false false true Json.null) ∧
    (∀ e ∈ gDeclOnly, e.hit = false) ∧
    ∃ ev, EvaluatedAssertion.new gDeclOnly = some ev := by
  have hall : ∀ e ∈ gDeclOnly, e.hit = false := by
    intro e he
    simp [gDeclOnly] at he
    subst he
    rfl
  refine ⟨rfl, hall, ?_⟩
  obtain ⟨ev, h, -, -, -, -, -, -⟩ :=
    declaration_only_verdicts gDeclOnly (mkA AssertType.Always false false true Json.null)
      rfl hall
  exact ⟨ev, h⟩

theorem lookupId_insertAssert (m : List (String × List AntithesisAssert))
    (x : AntithesisAssert) (i : String) :
    lookupId i (insertAssert m x) =
      if x.id = i then some (((lookupId i m).getD []) ++ [x]) else lookupId i m := by
  induction m with
  | nil =>
    by_cases h : x.id = i
    · simp [insertAssert, lookupId, h]
    · simp [insertAssert, lookupId, h]
  | cons kv rest ih =>
    obtain ⟨k, v⟩ := kv
    by_cases hk : k = x.id
    · by_cases h : x.id = i
      · simp [insertAssert, lookupId, hk, h]
      · simp [insertAssert, lookupId, hk, h]
    · by_cases h : k = i
      · have hxi : ¬ x.id = i := fun hc => hk (h.trans hc.symm)
        have hix : ¬ i = x.id := fun hc => hxi hc.symm
        simp [insertAssert, lookupId, hk, h, hxi, hix]
      · simp [insertAssert, lookupId, hk, h, ih]

theorem lookupId_group_step (inputs : List SDKInput) :
    ∀ (m : List (String × List AntithesisAssert)) (i : String),
      lookupId i (List.foldl groupStep m inputs) =
        appendGroup (lookupId i m) (assertsOf i inputs) := by
  induction inputs with
  | nil =>
    intro m i
    cases h : lookupId i m <;> simp [assertsOf, appendGroup, h]
  | cons input rest ih =>
    intro m i
    rw [List.foldl_cons, ih]
    cases input with
    | AntithesisAssert a =>
      simp only [groupStep]
      rw [lookupId_insertAssert]
      by_cases hid : a.id = i
      · rw [if_pos hid]
        have ha : assertsOf i (SDKInput.AntithesisAssert a :: rest) = a :: assertsOf i rest := by
          simp [assertsOf, hid]
        rw [ha]
        cases h : lookupId i m <;> simp [appendGroup]
      · rw [if_neg hid]
        have ha : assertsOf i (SDKInput.AntithesisAssert a :: rest) = assertsOf i rest := by
          simp [assertsOf, hid]
        rw [ha]
    | AntithesisSdk y =>
      have ha : assertsOf i (SDKInput.AntithesisSdk y :: rest) = assertsOf i rest := by
        simp [assertsOf]
      rw [ha]
      rfl
    | AntithesisSetup y =>
      have ha : assertsOf i (SDKInput.AntithesisSetup y :: rest) = assertsOf i rest := by
        simp [assertsOf]
      rw [ha]
      rfl
    | SendEvent n d2 =>
      have ha : assertsOf i (SDKInput.SendEvent n d2 :: rest) = assertsOf i rest := by
        simp [assertsOf]
      rw [ha]
      rfl

theorem lookupId_group_asserts (inputs : List SDKInput) (i : String) :
    lookupId i (group_asserts inputs) = appendGroup none (assertsOf i inputs) :=
  lookupId_group_step inputs [] i

theorem lookupId_mem (i : String) (m : List (String × List AntithesisAssert))
    (v : List AntithesisAssert) (h : lookupId i m = some v) : (i, v) ∈ m := by
  induction m with
  | nil => simp [lookupId] at h
  | cons kv rest ih =>
    obtain ⟨k, w⟩ := kv
    by_cases hk : k = i
    · subst hk
      simp [lookupId] at h
      subst h
      exact List.mem_cons_self _ _
    · simp [lookupId, hk] at h
      exact List.mem_cons_of_mem _ (ih h)

theorem eval_groups_none_of_mem (m : List (String × List AntithesisAssert)) (i : String)
    (v : List AntithesisAssert) (hmem : (i, v) ∈ m)
    (hv : EvaluatedAssertion.new v = none) : eval_groups m = none := by
  induction m with
  | nil => cases hmem
  | cons kv rest ih =>
    rcases List.mem_cons.mp hmem with h | h
    · obtain ⟨k, w⟩ := kv
      injection h.symm with h1 h2
      subst h1
      subst h2
      simp [eval_groups, hv]
    · obtain ⟨k, w⟩ := kv
      cases hw : EvaluatedAssertion.new w with
      | none => simp [eval_groups, hw]
      | some ev => simp [eval_groups, hw, ih h]

/-- C4: an id that only ever appears with `hit = true` (no declaration) makes
the whole run fail: the reduction aborts (the modelled `unwrap` panic), no
verdict list is produced for any id, and at the pipeline level the run
surfaces an error rather than skipping the group. -/
theorem missing_declaration_fatal (inputs : List SDKInput) (x : AntithesisAssert)
    (hx : SDKInput.AntithesisAssert x ∈ inputs)
    (honly : ∀ y : AntithesisAssert, SDKInput.AntithesisAssert y ∈ inputs → y.id = x.id →
      y.hit = true) :
    run_records inputs = none ∧
    ∀ lines, parse_lines lines = Except.ok inputs →
      run lines = Except.error "called Option::unwrap() on a None value" := by
  have hmm : x ∈ assertsOf x.id inputs := by
    rw [assertsOf, List.mem_filterMap]
    exact ⟨SDKInput.AntithesisAssert x, hx, by simp⟩
  have hne : assertsOf x.id inputs ≠ [] := by
    intro h
    rw [h] at hmm
    cases hmm
  have hlk : lookupId x.id (group_asserts inputs) = some (assertsOf x.id inputs) := by
    rw [lookupId_group_asserts]
    cases hc : assertsOf x.id inputs with
    | nil => exact absurd hc hne
    | cons a r => rfl
  have hall : ∀ e ∈ assertsOf x.id inputs, e.hit = true := by
    intro e he
    rw [assertsOf, List.mem_filterMap] at he
    obtain ⟨a, ha, hfa⟩ := he
    cases a <;> simp at hfa
    case AntithesisAssert b =>
      obtain ⟨hb, hbe⟩ := hfa
      subst hbe
      exact honly _ ha hb
  have hnone : EvaluatedAssertion.new (assertsOf x.id inputs) = none := by
    have h1 : (scanSlots (assertsOf x.id inputs)).1 = none := by
      rw [scanSlots_fst, slotFold_eq_getLast]
      have hf : (assertsOf x.id inputs).filter (fun e => !e.hit) = [] := by
        rw [List.filter_eq_nil_iff]
        intro a ha2
        simp [hall a ha2]
      rw [hf]
      rfl
    simp [EvaluatedAssertion.new, h1]
  have hrr : run_records inputs = none :=
    eval_groups_none_of_mem _ x.id _ (lookupId_mem _ _ _ hlk) hnone
  refine ⟨hrr, ?_⟩
  intro lines hp
  simp [run, hp, hrr]

/-- Witness for C4: a single hit-only assert record aborts the reduction. -/
theorem missing_declaration_fatal_witness :
    SDKInput.AntithesisAssert hitOnlyAssert ∈ [SDKInput.AntithesisAssert hitOnlyAssert] ∧
    run_records [SDKInput.AntithesisAssert hitOnlyAssert] = none := by
  refine ⟨List.mem_singleton.mpr rfl, ?_⟩
  have honly : ∀ y : AntithesisAssert,
      SDKInput.AntithesisAssert y ∈ [SDKInput.AntithesisAssert hitOnlyAssert] →
      y.id = hitOnlyAssert.id → y.hit = true := by
    intro y hy _
    rw [List.mem_singleton] at hy
    injection hy with h2
    subst h2
    rfl
  exact (missing_declaration_fatal [SDKInput.AntithesisAssert hitOnlyAssert] hitOnlyAssert
    (List.mem_singleton.mpr rfl) honly).1

theorem scanSlots_fst_getLast (l : List AntithesisAssert) :
    (scanSlots l).1 = (l.filter (fun e => !e.hit)).getLast? := by
  rw [scanSlots_fst, slotFold_eq_getLast]

theorem scanSlots_wt_getLast (l : List AntithesisAssert) :
    (scanSlots l).2.1 = (l.filter (fun e => e.hit && e.condition)).getLast? := by
  rw [scanSlots_wt, slotFold_eq_getLast]

theorem scanSlots_wf_getLast (l : List AntithesisAssert) :
    (scanSlots l).2.2 = (l.filter (fun e => e.hit && !e.condition)).getLast? := by
  rw [scanSlots_wf, slotFold_eq_getLast]

/-- C5 as amended: each of the three slots retains exactly the last matching
instance, and a group's bucket is its id's instances in input order; the
last true observation's details surface as `example_details` for Always,
Sometimes and Reachability-with-must_hit verdicts, but for Reachability
with `must_hit = false` the code leaves `example_details` null. -/
theorem last_write_wins_amended (l : List AntithesisAssert) (d a : AntithesisAssert)
    (hd : (scanSlots l).1 = some d)
    (hlen : 2 ≤ (l.filter (fun e => e.hit && e.condition)).length)
    (hlast : (l.filter (fun e => e.hit && e.condition)).getLast? = some a) :
    ∃ ev, EvaluatedAssertion.new l = some ev ∧
      ((d.assert_type = AssertType.Always ∨ d.assert_type = AssertType.Sometimes ∨
        (d.assert_type = AssertType.Reachability ∧ d.must_hit = true)) →
          ev.example_details = some a.details) ∧
      ((d.assert_type = AssertType.Reachability ∧ d.must_hit = false) →
          ev.example_details = none) ∧
      (scanSlots l).1 = (l.filter (fun e => !e.hit)).getLast? ∧
      (scanSlots l).2.1 = (l.filter (fun e => e.hit && e.condition)).getLast? ∧
      (scanSlots l).2.2 = (l.filter (fun e => e.hit && !e.condition)).getLast? ∧
      (∀ (inputs : List SDKInput) (i : String) (gl : List AntithesisAssert),
        lookupId i (group_asserts inputs) = some gl → gl = assertsOf i inputs) := by
  have hwt : (scanSlots l).2.1 = some a := by
    rw [scanSlots_wt_getLast, hlast]
  have hgrp : ∀ (inputs : List SDKInput) (i : String) (gl : List AntithesisAssert),
      lookupId i (group_asserts inputs) = some gl → gl = assertsOf i inputs := by
    intro inputs i gl h
    rw [lookupId_group_asserts] at h
    cases hc : assertsOf i inputs with
    | nil =>
      rw [hc] at h
      simp [appendGroup] at h
    | cons b r =>
      rw [hc] at h
      simp only [appendGroup] at h
      injection h with h2
      exact h2.symm
  cases hk : d.assert_type with
  | Always =>
    have hnew : EvaluatedAssertion.new l = some
        { display_type := d.display_type, id := d.id, message := d.message,
          location := d.location,
          example_details := (scanSlots l).2.1.map AntithesisAssert.details,
          counter_details := (scanSlots l).2.2.map AntithesisAssert.details,
          passed := if d.must_hit then (scanSlots l).2.1.isSome && (scanSlots l).2.2.isNone
            else (scanSlots l).2.2.isNone } := by
      simp only [EvaluatedAssertion.new, hd, hk]
    refine ⟨_, hnew, ?_, ?_, scanSlots_fst_getLast l, scanSlots_wt_getLast l,
      scanSlots_wf_getLast l, hgrp⟩
    · intro _
      simp [hwt]
    · intro hR
      exact AssertType.noConfusion hR.1
  | Sometimes =>
    have hnew : EvaluatedAssertion.new l = some
        { display_type := d.display_type, id := d.id, message := d.message,
          location := d.location,
          example_details := (scanSlots l).2.1.map AntithesisAssert.details,
          counter_details := (scanSlots l).2.2.map AntithesisAssert.details,
          passed := (scanSlots l).2.1.isSome } := by
      simp only [EvaluatedAssertion.new, hd, hk]
    refine ⟨_, hnew, ?_, ?_, scanSlots_fst_getLast l, scanSlots_wt_getLast l,
      scanSlots_wf_getLast l, hgrp⟩
    · intro _
      simp [hwt]
    · intro hR
      exact AssertType.noConfusion hR.1
  | Reachability =>
    cases hm : d.must_hit with
    | true =>
      have hnew : EvaluatedAssertion.new l = some
          { display_type := d.display_type, id := d.id, message := d.message,
            location := d.location,
            example_details :=
              ((scanSlots l).2.1.or (scanSlots l).2.2).map AntithesisAssert.details,
            counter_details := none,
            passed := (scanSlots l).2.1.isSome || (scanSlots l).2.2.isSome } := by
        simp only [EvaluatedAssertion.new, hd, hk, hm, if_true]
      refine ⟨_, hnew, ?_, ?_, scanSlots_fst_getLast l, scanSlots_wt_getLast l,
        scanSlots_wf_getLast l, hgrp⟩
      · intro _
        simp [hwt, Option.or]
      · intro hR
        exact Bool.noConfusion hR.2
    | false =>
      have hnew : EvaluatedAssertion.new l = some
          { display_type := d.display_type, id := d.id, message := d.message,
            location := d.location,
            example_details := none,
            counter_details :=
              ((scanSlots l).2.1.or (scanSlots l).2.2).map AntithesisAssert.details,
            passed := !((scanSlots l).2.1.isSome || (scanSlots l).2.2.isSome) } := by
        simp only [EvaluatedAssertion.new, hd, hk, hm, Bool.false_eq_true, if_false]
      refine ⟨_, hnew, ?_, ?_, scanSlots_fst_getLast l, scanSlots_wt_getLast l,
        scanSlots_wf_getLast l, hgrp⟩
      · intro h
        rcases h with h | h | h
        · exact AssertType.noConfusion h
        · exact AssertType.noConfusion h
        · exact Bool.noConfusion h.2
      · intro _
        rfl

/-- Witness for the amended C5: an Always group with two distinct true
observations keeps the later payload. -/
theorem last_write_wins_amended_witness :
    (scanSlots gLww).1 = some (mkA AssertType.Always false false true Json.null) ∧
    2 ≤ (gLww.filter (fun e => e.hit && e.condition)).length ∧
    (gLww.filter (fun e => e.hit && e.condition)).getLast? =
      some (mkA AssertType.Always false true true (Json.num 2)) ∧
    ∃ ev, EvaluatedAssertion.new gLww = some ev ∧
      ev.example_details = some (mkA AssertType.Always false true true (Json.num 2)).details := by
  refine ⟨rfl, by decide, rfl, ?_⟩
  obtain ⟨ev, h1, h2, -, -, -, -⟩ :=
    last_write_wins_amended gLww (mkA AssertType.Always false false true Json.null)
      (mkA AssertType.Always false true true (Json.num 2)) rfl (by decide) rfl
  exact ⟨ev, h1, h2 (Or.inl rfl)⟩

/-- Counterexample to C5 as stated: a Reachability group with `must_hit =
false` and two true-condition observations with different payloads gets a
verdict whose `example_details` is null, not the last observation's details. -/
theorem last_write_wins_counterexample :
    (cexGroup.filter (fun e => e.hit && e.condition)).length = 2 ∧
    (cexGroup.filter (fun e => e.hit && e.condition)).getLast? =
      some (mkA AssertType.Reachability false true true (Json.num 2)) ∧
    (mkA AssertType.Reachability false true true (Json.num 1)).details ≠
      (mkA AssertType.Reachability false true true (Json.num 2)).details ∧
    ∃ ev, EvaluatedAssertion.new cexGroup = some ev ∧
      ev.example_details = none ∧
      ev.example_details ≠
        some (mkA AssertType.Reachability false true true (Json.num 2)).details := by
  refine ⟨rfl, rfl, ?_, ?_⟩
  · intro h
    simp [mkA] at h
  · refine ⟨_, rfl, rfl, ?_⟩
    intro h
    simp at h

theorem parse_lines_append_error (l1 l2 : List String) (line : String)
    (hlen : ¬ line.length < 1)
    (he : ∃ e, parse_line line = Except.error e) :
    ∃ e, parse_lines (l1 ++ line :: l2) = Except.error e := by
  induction l1 with
  | nil =>
    obtain ⟨e, he⟩ := he
    exact ⟨e, by simp [parse_lines, hlen, he]⟩
  | cons x rest ih =>
    by_cases hx : x.length < 1
    · obtain ⟨e, hh⟩ := ih
      exact ⟨e, by simp [parse_lines, hx, hh]⟩
    · cases hpx : parse_line x with
      | error e => exact ⟨e, by simp [parse_lines, hx, hpx]⟩
      | ok v =>
        obtain ⟨e, hh⟩ := ih
        exact ⟨e, by simp [parse_lines, hx, hpx, hh]⟩

theorem parse_lines_skip_empty (l1 l2 : List String) :
    parse_lines (l1 ++ "" :: l2) = parse_lines (l1 ++ l2) := by
  induction l1 with
  | nil => rfl
  | cons x rest ih =>
    by_cases hx : x.length < 1
    · simp [parse_lines, hx, ih]
    · cases hpx : parse_line x with
      | error e => simp [parse_lines, hx, hpx]
      | ok v => simp [parse_lines, hx, hpx, ih]

theorem skipWs_all (cs : List Char) (h : cs.all isJsonWs = true) : skipWs cs = [] := by
  induction cs with
  | nil => rfl
  | cons c cs ih =>
    simp only [List.all_cons, Bool.and_eq_true] at h
    simp [skipWs, h.1, ih h.2]

theorem from_str_ws (s : String) (h : s.toList.all isJsonWs = true) : from_str s = none := by
  rw [from_str]
  have h2 : s.length + 2 = Nat.succ (s.length + 1) := rfl
  have h3 : skipWs s.data = [] := skipWs_all s.toList h
  rw [h2]
  simp [parseVal, h3]

/-- C7: a line that is valid JSON but matches neither the tagged schema nor
the nonempty-object fallback (a non-object value, or an object with zero
entries) aborts the whole batch: `parse_lines` and the full pipeline both
return an error, so no output is produced for any record. -/
theorem undecodable_line_fatal (l1 l2 : List String) (line : String) (v : Json)
    (hjson : from_str line = some v)
    (hnodecode : decodeSDKInput v = none)
    (hnofallback : ∀ entries, v = Json.obj entries → entries = []) :
    (∃ e, parse_lines (l1 ++ line :: l2) = Except.error e) ∧
    (∃ e, run (l1 ++ line :: l2) = Except.error e) := by
  have hlen : ¬ line.length < 1 := by
    intro hl
    have h0 : line = "" := by
      cases line with
      | mk data =>
        have hl0 : data.length = 0 := Nat.lt_one_iff.mp hl
        have hd : data = [] := List.length_eq_zero.mp hl0
        subst hd
        rfl
    rw [h0] at hjson
    exact Option.noConfusion hjson
  have herr : ∃ e, parse_line line = Except.error e := by
    cases v with
    | obj entries =>
      have he : entries = [] := hnofallback entries rfl
      subst he
      exact ⟨"no details found here", by simp [parse_line, hjson, hnodecode]⟩
    | null => exact ⟨"it broke - not an Object() unable to parse JSON", by simp [parse_line, hjson, hnodecode]⟩
    | bool b => exact ⟨"it broke - not an Object() unable to parse JSON", by simp [parse_line, hjson, hnodecode]⟩
    | num n => exact ⟨"it broke - not an Object() unable to parse JSON", by simp [parse_line, hjson, hnodecode]⟩
    | str s => exact ⟨"it broke - not an Object() unable to parse JSON", by simp [parse_line, hjson, hnodecode]⟩
    | arr elems => exact ⟨"it broke - not an Object() unable to parse JSON", by simp [parse_line, hjson, hnodecode]⟩
  have hpl := parse_lines_append_error l1 l2 line hlen herr
  refine ⟨hpl, ?_⟩
  obtain ⟨e, he2⟩ := hpl
  exact ⟨e, by simp [run, he2]⟩

/-- Witness for C7: the line `[1]` is valid JSON but not an object. -/
theorem undecodable_line_fatal_witness :
    from_str "[1]" = some (Json.arr [Json.num 1]) ∧
    decodeSDKInput (Json.arr [Json.num 1]) = none ∧
    (∃ e, parse_lines ["[1]"] = Except.error e) := by
  refine ⟨rfl, rfl, ?_⟩
  exact (undecodable_line_fatal [] [] "[1]" (Json.arr [Json.num 1]) rfl rfl
    (fun entries h => Json.noConfusion h)).1

theorem groupStep_ignore (m : List (String × List AntithesisAssert)) (s : SDKInput)
    (h : ∀ a : AntithesisAssert, s ≠ SDKInput.AntithesisAssert a) : groupStep m s = m := by
  cases s with
  | AntithesisAssert a => exact absurd rfl (h a)
  | AntithesisSdk x => rfl
  | AntithesisSetup x => rfl
  | SendEvent n d2 => rfl

theorem group_asserts_ignore (inputs1 inputs2 : List SDKInput) (s : SDKInput)
    (h : ∀ a : AntithesisAssert, s ≠ SDKInput.AntithesisAssert a) :
    group_asserts (inputs1 ++ s :: inputs2) = group_asserts (inputs1 ++ inputs2) := by
  rw [group_asserts, group_asserts, List.foldl_append, List.foldl_append, List.foldl_cons,
    groupStep_ignore _ _ h]

theorem run_records_ignore (inputs1 inputs2 : List SDKInput) (s : SDKInput)
    (h : ∀ a : AntithesisAssert, s ≠ SDKInput.AntithesisAssert a) :
    run_records (inputs1 ++ s :: inputs2) = run_records (inputs1 ++ inputs2) := by
  rw [run_records, run_records, group_asserts_ignore _ _ _ h]

/-- C8: a line that is a nonempty JSON object not matching the tagged schema
classifies as a `SendEvent` named by its first entry; such records, like the
sdk and setup variants, leave grouping and the verdict set unchanged and do
not abort the run. -/
theorem named_event_fallback (line : String) (k : String) (dv : Json)
    (rest : List (String × Json))
    (hjson : from_str line = some (Json.obj ((k, dv) :: rest)))
    (hnodecode : decodeSDKInput (Json.obj ((k, dv) :: rest)) = none) :
    parse_line line = Except.ok (SDKInput.SendEvent k dv) ∧
    (∀ inputs1 inputs2, group_asserts (inputs1 ++ SDKInput.SendEvent k dv :: inputs2) =
      group_asserts (inputs1 ++ inputs2)) ∧
    (∀ inputs1 inputs2, run_records (inputs1 ++ SDKInput.SendEvent k dv :: inputs2) =
      run_records (inputs1 ++ inputs2)) ∧
    (∀ (x : AntithesisSdk) inputs1 inputs2,
      run_records (inputs1 ++ SDKInput.AntithesisSdk x :: inputs2) =
        run_records (inputs1 ++ inputs2)) ∧
    (∀ (x : AntithesisSetup) inputs1 inputs2,
      run_records (inputs1 ++ SDKInput.AntithesisSetup x :: inputs2) =
        run_records (inputs1 ++ inputs2)) := by
  refine ⟨?_, ?_, ?_, ?_, ?_⟩
  · simp [parse_line, hjson, hnodecode]
  · intro i1 i2
    exact group_asserts_ignore i1 i2 _ (fun a h => SDKInput.noConfusion h)
  · intro i1 i2
    exact run_records_ignore i1 i2 _ (fun a h => SDKInput.noConfusion h)
  · intro x i1 i2
    exact run_records_ignore i1 i2 _ (fun a h => SDKInput.noConfusion h)
  · intro x i1 i2
    exact run_records_ignore i1 i2 _ (fun a h => SDKInput.noConfusion h)

/-- Witness for C8: the spec's example line with an unknown single key. -/
theorem named_event_fallback_witness :
    from_str "\x7b\"custom_event\":\x7b\"x\":1\x7d\x7d" =
      some (Json.obj [("custom_event", Json.obj [("x", Json.num 1)])]) ∧
    decodeSDKInput (Json.obj [("custom_event", Json.obj [("x", Json.num 1)])]) = none ∧
    parse_line "\x7b\"custom_event\":\x7b\"x\":1\x7d\x7d" =
      Except.ok (SDKInput.SendEvent "custom_event" (Json.obj [("x", Json.num 1)])) := by
  refine ⟨rfl, rfl, ?_⟩
  exact (named_event_fallback "\x7b\"custom_event\":\x7b\"x\":1\x7d\x7d" "custom_event"
    (Json.obj [("x", Json.num 1)]) [] rfl rfl).1

/-- C10: a line whose object's first key is a known schema tag but whose
content fails that tag's field schema is not a parse failure: the single-key
fallback absorbs it as a `SendEvent` named after the tag, and it is excluded
from grouping and the verdict output. -/
theorem known_tag_bad_content_fallback (line : String) (tag : String) (content : Json)
    (rest : List (String × Json))
    (hjson : from_str line = some (Json.obj ((tag, content) :: rest)))
    (hfail :
      (tag = "antithesis_assert" ∧ decodeAntithesisAssert content = none) ∨
      (tag = "antithesis_sdk" ∧ decodeAntithesisSdk content = none) ∨
      (tag = "antithesis_setup" ∧ decodeAntithesisSetup content = none)) :
    parse_line line = Except.ok (SDKInput.SendEvent tag content) ∧
    (∀ inputs1 inputs2, run_records (inputs1 ++ SDKInput.SendEvent tag content :: inputs2) =
      run_records (inputs1 ++ inputs2)) := by
  have hnodecode : decodeSDKInput (Json.obj ((tag, content) :: rest)) = none := by
    cases rest with
    | nil =>
      rcases hfail with ⟨ht, hc⟩ | ⟨ht, hc⟩ | ⟨ht, hc⟩ <;> subst ht <;>
        simp [decodeSDKInput, hc]
    | cons p r2 => rfl
  refine ⟨?_, ?_⟩
  · simp [parse_line, hjson, hnodecode]
  · intro i1 i2
    exact run_records_ignore i1 i2 _ (fun a h => SDKInput.noConfusion h)

/-- Witness for C10: an `antithesis_assert` line whose content is missing
every required field. -/
theorem known_tag_bad_content_fallback_witness :
    from_str "\x7b\"antithesis_assert\":\x7b\"hello\":true\x7d\x7d" =
      some (Json.obj [("antithesis_assert", Json.obj [("hello", Json.bool true)])]) ∧
    decodeAntithesisAssert (Json.obj [("hello", Json.bool true)]) = none ∧
    parse_line "\x7b\"antithesis_assert\":\x7b\"hello\":true\x7d\x7d" =
      Except.ok (SDKInput.SendEvent "antithesis_assert" (Json.obj [("hello", Json.bool true)])) := by
  refine ⟨rfl, rfl, ?_⟩
  exact (known_tag_bad_content_fallback "\x7b\"antithesis_assert\":\x7b\"hello\":true\x7d\x7d"
    "antithesis_assert" (Json.obj [("hello", Json.bool true)]) [] rfl
    (Or.inl ⟨rfl, rfl⟩)).1

/-- C9 as amended: empty lines are skipped and change nothing, but a
nonempty line consisting only of whitespace is not skipped — it fails JSON
parsing and aborts the batch. -/
theorem blank_lines_amended (l1 l2 : List String) (line : String)
    (hws : line.toList.all isJsonWs = true) :
    parse_lines (l1 ++ "" :: l2) = parse_lines (l1 ++ l2) ∧
    (¬ line.length < 1 → ∃ e, parse_lines (l1 ++ line :: l2) = Except.error e) := by
  refine ⟨parse_lines_skip_empty l1 l2, ?_⟩
  intro hlen
  apply parse_lines_append_error l1 l2 line hlen
  exact ⟨"invalid JSON", by simp [parse_line, from_str_ws line hws]⟩

/-- Witness for the amended C9: the single-space line. -/
theorem blank_lines_amended_witness :
    (" " : String).toList.all isJsonWs = true ∧
    ¬ (" " : String).length < 1 ∧
    parse_lines ([] ++ "" :: []) = parse_lines ([] ++ []) ∧
    ∃ e, parse_lines ([] ++ " " :: []) = Except.error e := by
  have h := blank_lines_amended [] [] " " (by decide)
  exact ⟨by decide, by decide, h.1, h.2 (by decide)⟩

/-- Counterexample to C9 as stated: a whitespace-only (but nonempty) line is
not skipped — it makes the batch fail, unlike the empty input. -/
theorem blank_lines_counterexample :
    parse_lines [" "] = Except.error "invalid JSON" ∧ parse_lines [] = Except.ok [] :=
  ⟨rfl, rfl⟩
